import Mathlib

/-!
Shallow embedding of `src/app.py` (milkybasket): a SQLite-backed daily milk
ledger.  The database state is modelled explicitly; every core operation of
the Python source (month seeding, record update, registration,
authentication, monthly summary) becomes a pure state-passing function.
SQLite REAL columns are modelled as exact rationals, AUTOINCREMENT ids as
explicit counters, and nullable columns as Option.
-/

namespace MilkyBasket

/-- Row of the `users` table (`app.py` lines 58-67).  Timestamps are not
modelled.  The column `password_hash` keeps its source name even though the
code stores the plain password in it. -/
structure User where
  user_id : Nat
  username : String
  password_hash : String
  base_milk_cost : ℚ
deriving DecidableEq

/-- Calendar date as stored in the `record_date` DATE column (ISO
`YYYY-MM-DD`); modelled structurally.  For the 4-digit years all claims
range over, structural equality agrees with the string comparisons
`strftime` performs in the source queries. -/
structure MDate where
  year : Int
  month : Nat
  day : Nat
deriving DecidableEq

/-- Row of the `milk_records` table (`app.py` lines 70-87).  `total_cost` is
the STORED generated column `CASE WHEN is_taken = 1 THEN base_cost +
additional_cost ELSE 0 END`; SQLite recomputes it on every write, which the
embedding mirrors by setting it from the generator at each insert/update.
`is_taken` is an INTEGER column, hence `Int` here. -/
structure MilkRecord where
  record_id : Nat
  user_id : Nat
  record_date : MDate
  is_taken : Int
  base_cost : ℚ
  additional_cost : ℚ
  total_cost : ℚ
  notes : Option String
deriving DecidableEq

/-- Row of the `monthly_summary` table (`app.py` lines 90-103), statistics
fields only. -/
structure SummaryRow where
  user_id : Nat
  month : Nat
  year : Int
  total_days : Nat
  milk_taken_days : Nat
  total_amount : ℚ
deriving DecidableEq

/-- The triple returned by `calculate_monthly_summary` (lines 351-355). -/
structure SummaryTriple where
  total_days : Nat
  milk_taken_days : Nat
  total_amount : ℚ
deriving DecidableEq

/-- Whole database state: the three tables plus the AUTOINCREMENT
counters. -/
structure DB where
  users : List User
  milk_records : List MilkRecord
  monthly_summary : List SummaryRow
  next_user_id : Nat
  next_record_id : Nat
deriving DecidableEq

/-- Python `calendar.isleap` as used by `calendar.monthrange`. -/
def isleap (y : Int) : Bool :=
  y % 4 == 0 && (y % 100 != 0 || y % 400 == 0)

/-- Python `calendar.mdays`: day counts per month, index 0 unused. -/
def mdays : List Nat := [0, 31, 28, 31, 30, 31, 30, 31, 31, 30, 31, 30, 31]

/-- Day count of `calendar.monthrange(year, month)` (`app.py` line 274):
`mdays[month] + (month == 2 and isleap(year))`. -/
def daysInMonth (y : Int) (m : Nat) : Nat :=
  mdays.getD m 0 + (if m = 2 ∧ isleap y then 1 else 0)

/-- The generated-column expression of `total_cost` (lines 78-80), also the
CASE expression of the read query (line 242) and of the summary query
(line 323). -/
def gen_total (it : Int) (b a : ℚ) : ℚ :=
  if it = 1 then b + a else 0

/-- Whether a row for `(user_id, record_date)` exists — the
`UNIQUE(user_id, record_date)` constraint that makes line 280's
`INSERT OR IGNORE` skip a day. -/
def recordExists (db : DB) (u : Nat) (d : MDate) : Bool :=
  db.milk_records.any (fun r => decide (r.user_id = u ∧ r.record_date = d))

/-- The base-cost lookup of `initialize_month_records` (lines 266-271):
the user's `base_milk_cost`, defaulting to 104.00 when the user row is
missing. -/
def lookup_base_cost (db : DB) (u : Nat) : ℚ :=
  match db.users.find? (fun w => decide (w.user_id = u)) with
  | some w => w.base_milk_cost
  | none => 104

/-- One iteration of the seeding loop (lines 276-282): `INSERT OR IGNORE`
of a default row for one day.  The ignore branch is the UNIQUE-constraint
skip; the insert branch writes `is_taken=1, additional_cost=0.00`, leaves
`notes` NULL, and SQLite fills the generated `total_cost`. -/
def seedDay (u : Nat) (y : Int) (m : Nat) (bc : ℚ) (db : DB) (day : Nat) : DB :=
  if recordExists db u (MDate.mk y m day) then db
  else
    { db with
      milk_records := db.milk_records ++
        [{ record_id := db.next_record_id
           user_id := u
           record_date := MDate.mk y m day
           is_taken := 1
           base_cost := bc
           additional_cost := 0
           total_cost := gen_total 1 bc 0
           notes := none }]
      next_record_id := db.next_record_id + 1 }

/-- The loop domain `range(1, num_days + 1)` of line 276. -/
def daysList (n : Nat) : List Nat := List.range' 1 n

/-- Embeds `initialize_month_records` (lines 262-290).  A month outside
1..12 makes `calendar.monthrange` raise and a year outside 1..9999 makes
`datetime` raise before any insert is committed, so the function returns
False with the state unchanged; otherwise each day of the month is seeded
with `INSERT OR IGNORE` and the function returns True. -/
def init_month_records (db : DB) (u : Nat) (m : Nat) (y : Int) (bc? : Option ℚ) :
    DB × Bool :=
  if m < 1 ∨ 12 < m ∨ y < 1 ∨ 9999 < y then (db, false)
  else
    let bc := bc?.getD (lookup_base_cost db u)
    ((daysList (daysInMonth y m)).foldl (seedDay u y m bc) db, true)

/-- Embeds `update_milk_record` (lines 293-309): an UPDATE of the four
mutable fields of the row with the given `record_id`; the truthy `is_taken`
argument is stored as `1 if is_taken else 0`, and SQLite recomputes the
generated `total_cost`.  An UPDATE matching zero rows still succeeds, so the
function returns True whether or not the id exists. -/
def update_milk_record (db : DB) (rid : Nat) (tk : Bool) (b a : ℚ)
    (n : Option String) : DB × Bool :=
  ({ db with
     milk_records := db.milk_records.map (fun r =>
       if r.record_id = rid then
         { r with
           is_taken := if tk then 1 else 0
           base_cost := b
           additional_cost := a
           notes := n
           total_cost := gen_total (if tk then 1 else 0) b a }
       else r) }, true)

/-- Embeds `create_user` (lines 220-233): INSERT of a new user row; the
`username TEXT UNIQUE` constraint makes the insert raise when the username
is already present, which the source catches and turns into False with the
state unchanged. -/
def create_user (db : DB) (username password : String) (cost : ℚ) :
    DB × Bool :=
  if db.users.any (fun w => decide (w.username = username)) then (db, false)
  else
    ({ db with
       users := db.users ++
         [{ user_id := db.next_user_id
            username := username
            password_hash := password
            base_milk_cost := cost }]
       next_user_id := db.next_user_id + 1 }, true)

/-- Embeds `update_base_milk_cost` (lines 182-198). -/
def update_base_milk_cost (db : DB) (u : Nat) (c : ℚ) : DB × Bool :=
  ({ db with
     users := db.users.map (fun w =>
       if w.user_id = u then { w with base_milk_cost := c } else w) }, true)

/-- Embeds `update_password` (lines 201-217). -/
def update_password (db : DB) (u : Nat) (p : String) : DB × Bool :=
  ({ db with
     users := db.users.map (fun w =>
       if w.user_id = u then { w with password_hash := p } else w) }, true)

/-- Embeds `authenticate` (lines 144-159): fetch the first row with the
given username and compare the supplied password with the stored
`password_hash` column verbatim — no hash is applied to either side even
though `hash_password` exists in the source. -/
def authenticate (db : DB) (username password : String) : Option Nat :=
  match db.users.find? (fun w => decide (w.username = username)) with
  | none => none
  | some w => if w.password_hash = password then some w.user_id else none

/-- The row set of the WHERE clause shared by `get_milk_records` (line 245)
and `calculate_monthly_summary` (lines 325-327): rows of one user whose
date falls in the given month and year. -/
def monthRecords (db : DB) (u : Nat) (m : Nat) (y : Int) : List MilkRecord :=
  db.milk_records.filter (fun r =>
    decide (r.user_id = u ∧ r.record_date.month = m ∧ r.record_date.year = y))

/-- Row shape returned by `get_milk_records` (lines 240-247); `total_cost`
is the CASE expression evaluated at read time. -/
structure RecordView where
  record_id : Nat
  record_date : MDate
  is_taken : Int
  base_cost : ℚ
  additional_cost : ℚ
  total_cost : ℚ
  notes : Option String
deriving DecidableEq

/-- Embeds the query of `get_milk_records` (lines 236-259), the derived
`total_cost` computed by the SELECT's CASE expression.  The ORDER BY does
not change the row set and is not modelled. -/
def get_milk_records (db : DB) (u : Nat) (m : Nat) (y : Int) :
    List RecordView :=
  (monthRecords db u m y).map (fun r =>
    { record_id := r.record_id
      record_date := r.record_date
      is_taken := r.is_taken
      base_cost := r.base_cost
      additional_cost := r.additional_cost
      total_cost := gen_total r.is_taken r.base_cost r.additional_cost
      notes := r.notes })

/-- The `ON CONFLICT(user_id, month, year) DO UPDATE` upsert of lines
338-346. -/
def upsertSummary (l : List SummaryRow) (row : SummaryRow) : List SummaryRow :=
  if l.any (fun s =>
      decide (s.user_id = row.user_id ∧ s.month = row.month ∧ s.year = row.year)) then
    l.map (fun s =>
      if s.user_id = row.user_id ∧ s.month = row.month ∧ s.year = row.year then
        row
      else s)
  else l ++ [row]

/-- Embeds `calculate_monthly_summary` (lines 312-362).  The aggregate
SELECT (lines 319-328) computes COUNT and the two SUM-of-CASE columns over
the month's rows (`SUM` of an empty set is NULL, turned into 0 by the
source's `or 0`).  The upsert into `monthly_summary` violates that table's
CHECK constraints (`month BETWEEN 1 AND 12`, `year BETWEEN 2020 AND 2100`)
when month or year is out of range; the source catches the resulting
IntegrityError and returns None with nothing committed. -/
def calculate_monthly_summary (db : DB) (u : Nat) (m : Nat) (y : Int) :
    DB × Option SummaryTriple :=
  let l := monthRecords db u m y
  let total_days := l.length
  let taken_days := (l.map (fun r => if r.is_taken = 1 then (1 : Nat) else 0)).sum
  let total_amount :=
    (l.map (fun r => if r.is_taken = 1 then r.base_cost + r.additional_cost else 0)).sum
  if 1 ≤ m ∧ m ≤ 12 ∧ 2020 ≤ y ∧ y ≤ 2100 then
    ({ db with
       monthly_summary := upsertSummary db.monthly_summary
         { user_id := u, month := m, year := y, total_days := total_days
           milk_taken_days := taken_days, total_amount := total_amount } },
     some { total_days := total_days, milk_taken_days := taken_days
            total_amount := total_amount })
  else (db, none)

/-- The state `init_database` (lines 52-127) leaves on a fresh file: empty
tables except the demo user inserted at line 124. -/
def demoDB : DB :=
  { users := [{ user_id := 1, username := "demo", password_hash := "demo"
                base_milk_cost := 104 }]
    milk_records := []
    monthly_summary := []
    next_user_id := 2
    next_record_id := 1 }

/-- The state-mutating core operations, for stating invariants preserved by
every operation. -/
inductive Op where
  | seed (u : Nat) (m : Nat) (y : Int) (bc : Option ℚ)
  | updateRecord (rid : Nat) (tk : Bool) (b a : ℚ) (n : Option String)
  | register (username password : String) (cost : ℚ)
  | setCost (u : Nat) (c : ℚ)
  | setPassword (u : Nat) (p : String)
  | summarize (u : Nat) (m : Nat) (y : Int)

/-- State effect of one operation. -/
def applyOp (db : DB) : Op → DB
  | .seed u m y bc => (init_month_records db u m y bc).1
  | .updateRecord rid tk b a n => (update_milk_record db rid tk b a n).1
  | .register un pw c => (create_user db un pw c).1
  | .setCost u c => (update_base_milk_cost db u c).1
  | .setPassword u p => (update_password db u p).1
  | .summarize u m y => (calculate_monthly_summary db u m y).1

/-- The derived-total invariant: every stored `total_cost` equals the
generated-column expression of its own row. -/
def TotalInvariant (db : DB) : Prop :=
  ∀ r ∈ db.milk_records,
    r.total_cost = if r.is_taken = 1 then r.base_cost + r.additional_cost else 0

/-- The flag-normalization invariant: every stored `is_taken` is 0 or 1. -/
def TakenBool (db : DB) : Prop :=
  ∀ r ∈ db.milk_records, r.is_taken = 0 ∨ r.is_taken = 1

/-! Helper lemmas about the seeding loop. -/

theorem seedDay_users (u : Nat) (y : Int) (m : Nat) (bc : ℚ) (db : DB) (day : Nat) :
    (seedDay u y m bc db day).users = db.users := by
  unfold seedDay; split <;> rfl

theorem seedDays_users (u : Nat) (y : Int) (m : Nat) (bc : ℚ) (l : List Nat) (db : DB) :
    (l.foldl (seedDay u y m bc) db).users = db.users := by
  induction l generalizing db with
  | nil => rfl
  | cons hd tl ih => simp only [List.foldl_cons]; rw [ih, seedDay_users]

theorem lookup_base_cost_congr {db db' : DB} (u : Nat) (h : db'.users = db.users) :
    lookup_base_cost db' u = lookup_base_cost db u := by
  unfold lookup_base_cost; rw [h]

theorem recordExists_seedDay_mono {db : DB} {u' : Nat} {d : MDate}
    (u : Nat) (y : Int) (m : Nat) (bc : ℚ) (day : Nat)
    (h : recordExists db u' d = true) :
    recordExists (seedDay u y m bc db day) u' d = true := by
  unfold seedDay; split
  · exact h
  · unfold recordExists at h ⊢
    simp only [List.any_append, Bool.or_eq_true]
    exact Or.inl h

theorem recordExists_seedDay_self (u : Nat) (y : Int) (m : Nat) (bc : ℚ)
    (db : DB) (day : Nat) :
    recordExists (seedDay u y m bc db day) u (MDate.mk y m day) = true := by
  unfold seedDay; split
  · assumption
  · unfold recordExists
    simp

theorem seedDay_of_exists {db : DB} {u : Nat} {y : Int} {m : Nat} {day : Nat} (bc : ℚ)
    (h : recordExists db u (MDate.mk y m day) = true) :
    seedDay u y m bc db day = db := by
  unfold seedDay; rw [h]; rfl

theorem recordExists_seedDays_mono {db : DB} {u' : Nat} {d : MDate}
    (u : Nat) (y : Int) (m : Nat) (bc : ℚ) (l : List Nat)
    (h : recordExists db u' d = true) :
    recordExists (l.foldl (seedDay u y m bc) db) u' d = true := by
  induction l generalizing db with
  | nil => exact h
  | cons hd tl ih =>
    simp only [List.foldl_cons]
    exact ih (recordExists_seedDay_mono u y m bc hd h)

theorem seedDays_all (u : Nat) (y : Int) (m : Nat) (bc : ℚ) (l : List Nat) (db : DB) :
    ∀ day ∈ l, recordExists (l.foldl (seedDay u y m bc) db) u (MDate.mk y m day) = true := by
  induction l generalizing db with
  | nil => intro day hd; cases hd
  | cons hd tl ih =>
    intro day hmem
    simp only [List.foldl_cons]
    rcases List.mem_cons.mp hmem with heq | htl
    · subst heq
      exact recordExists_seedDays_mono u y m bc tl
        (recordExists_seedDay_self u y m bc db day)
    · exact ih (seedDay u y m bc db hd) day htl

theorem seedDays_id {u : Nat} {y : Int} {m : Nat} (bc : ℚ) {l : List Nat} {db : DB}
    (h : ∀ day ∈ l, recordExists db u (MDate.mk y m day) = true) :
    l.foldl (seedDay u y m bc) db = db := by
  induction l with
  | nil => rfl
  | cons hd tl ih =>
    simp only [List.foldl_cons]
    rw [seedDay_of_exists bc (h hd (List.mem_cons_self hd tl))]
    exact ih (fun day hmem => h day (List.mem_cons_of_mem hd hmem))

theorem init_id_of_seeded {db' : DB} {u : Nat} {m : Nat} {y : Int} (bc? : Option ℚ)
    (hg : ¬(m < 1 ∨ 12 < m ∨ y < 1 ∨ 9999 < y))
    (hall : ∀ day ∈ daysList (daysInMonth y m),
      recordExists db' u (MDate.mk y m day) = true) :
    init_month_records db' u m y bc? = (db', true) := by
  rw [init_month_records, if_neg hg]
  show ((daysList (daysInMonth y m)).foldl
    (seedDay u y m (bc?.getD (lookup_base_cost db' u))) db', true) = (db', true)
  rw [seedDays_id (bc?.getD (lookup_base_cost db' u)) hall]

/-- C1: month seeding is idempotent — seeding the same account, month, and
year twice in a row yields exactly the state (and result) of seeding once:
the second call inserts nothing and leaves every pre-existing row, with all
its fields, unchanged. -/
theorem c1_seed_idempotent (db : DB) (u : Nat) (m : Nat) (y : Int) (bc? : Option ℚ) :
    init_month_records (init_month_records db u m y bc?).1 u m y bc? =
      init_month_records db u m y bc? := by
  by_cases hg : m < 1 ∨ 12 < m ∨ y < 1 ∨ 9999 < y
  · have h1 : init_month_records db u m y bc? = (db, false) := by
      rw [init_month_records, if_pos hg]
    rw [h1]; exact h1
  · have h1 : init_month_records db u m y bc? =
        ((daysList (daysInMonth y m)).foldl
          (seedDay u y m (bc?.getD (lookup_base_cost db u))) db, true) := by
      rw [init_month_records, if_neg hg]
    rw [h1]
    exact init_id_of_seeded bc? hg
      (seedDays_all u y m (bc?.getD (lookup_base_cost db u)) (daysList (daysInMonth y m)) db)

theorem recordExists_seedDay_other {d : MDate} {u' u : Nat} {y : Int} {m : Nat}
    {bc : ℚ} {db : DB} {day : Nat} (hne : MDate.mk y m day ≠ d) :
    recordExists (seedDay u y m bc db day) u' d = recordExists db u' d := by
  unfold seedDay; split
  · rfl
  · unfold recordExists
    simp [List.any_append, hne]

theorem seedDays_length {u : Nat} {y : Int} {m : Nat} {bc : ℚ} {l : List Nat} {db : DB}
    (hnd : l.Nodup)
    (hfresh : ∀ day ∈ l, recordExists db u (MDate.mk y m day) = false) :
    (l.foldl (seedDay u y m bc) db).milk_records.length
      = db.milk_records.length + l.length := by
  induction l generalizing db with
  | nil => simp
  | cons hd tl ih =>
    simp only [List.foldl_cons]
    have hfr : recordExists db u (MDate.mk y m hd) = false :=
      hfresh hd (List.mem_cons_self hd tl)
    have hlen1 : (seedDay u y m bc db hd).milk_records.length
        = db.milk_records.length + 1 := by
      unfold seedDay; rw [hfr]; simp
    have hnd' := List.nodup_cons.mp hnd
    have htl : ∀ day ∈ tl,
        recordExists (seedDay u y m bc db hd) u (MDate.mk y m day) = false := by
      intro day hmem
      have hne : MDate.mk y m hd ≠ MDate.mk y m day := by
        intro hcontr
        have : hd = day := by
          have := (MDate.mk.injEq y m hd y m day).mp hcontr
          exact this.2.2
        exact hnd'.1 (this ▸ hmem)
      rw [recordExists_seedDay_other hne]
      exact hfresh day (List.mem_cons_of_mem hd hmem)
    rw [ih hnd'.2 htl, hlen1]
    simp only [List.length_cons]
    omega

/-- C4: seeding creates exactly one row per calendar day of the requested
month — on an empty ledger the row count equals the Gregorian day count of
the month, and concretely seeding February 2024 (leap year) yields 29 rows
while February 2023 yields 28. -/
theorem c4_seed_row_count :
    (∀ (db : DB) (u : Nat) (m : Nat) (y : Int) (bc? : Option ℚ),
        1 ≤ m → m ≤ 12 → 1 ≤ y → y ≤ 9999 → db.milk_records = [] →
        ((init_month_records db u m y bc?).1).milk_records.length = daysInMonth y m)
    ∧ ((init_month_records demoDB 1 2 2024 none).1).milk_records.length = 29
    ∧ ((init_month_records demoDB 1 2 2023 none).1).milk_records.length = 28 := by
  refine ⟨?_, by decide, by decide⟩
  intro db u m y bc? h1 h2 h3 h4 hempty
  have hg : ¬(m < 1 ∨ 12 < m ∨ y < 1 ∨ 9999 < y) := by omega
  rw [init_month_records, if_neg hg]
  show ((daysList (daysInMonth y m)).foldl
    (seedDay u y m (bc?.getD (lookup_base_cost db u))) db).milk_records.length = _
  have hfresh : ∀ day ∈ daysList (daysInMonth y m),
      recordExists db u (MDate.mk y m day) = false := by
    intro day _
    unfold recordExists
    rw [hempty]
    rfl
  rw [seedDays_length
    (show (daysList (daysInMonth y m)).Nodup from List.nodup_range' 1 (daysInMonth y m))
    hfresh, hempty]
  simp [daysList]

/-- C5 counterexample: on the initial state, whose ledger is empty, an
update of the nonexistent record id 1 reports success (True) and performs
no change, instead of failing as the claim demands. -/
theorem c5_update_missing_reports_success :
    demoDB.milk_records = [] ∧
    update_milk_record demoDB 1 true 104 0 none = (demoDB, true) := by decide

/-- C5 (amended): an update whose record id matches no stored DailyRecord
changes no stored record, but reports success (returns True) rather than
failing — the source UPDATE simply matches zero rows. -/
theorem c5_update_missing_id (db : DB) (rid : Nat) (tk : Bool) (b a : ℚ)
    (n : Option String) (h : ∀ r ∈ db.milk_records, r.record_id ≠ rid) :
    update_milk_record db rid tk b a n = (db, true) := by
  unfold update_milk_record
  have h2 : ∀ r ∈ db.milk_records,
      (if r.record_id = rid then
        { r with
          is_taken := if tk then 1 else 0
          base_cost := b
          additional_cost := a
          notes := n
          total_cost := gen_total (if tk then 1 else 0) b a }
      else r) = r :=
    fun r hr => if_neg (h r hr)
  rw [List.map_congr_left h2, List.map_id']

/-- Witness for C5's amended statement: updating the missing record id 7 in
the initial state succeeds without change. -/
theorem c5_update_missing_id_witness :
    update_milk_record demoDB 7 false 10 5 (some "x") = (demoDB, true) :=
  c5_update_missing_id demoDB 7 false 10 5 (some "x") (by decide)

/-- C6: registering a username that is already taken fails and leaves the
whole state — in particular the first account's id, credential, and default
cost — unchanged. -/
theorem c6_register_duplicate (db : DB) (name pw : String) (c : ℚ)
    (pw' : String) (c' : ℚ) (h : (create_user db name pw c).2 = true) :
    create_user (create_user db name pw c).1 name pw' c' =
      ((create_user db name pw c).1, false) := by
  have hdup : db.users.any (fun w => decide (w.username = name)) = false := by
    by_contra hcon
    rw [Bool.not_eq_false] at hcon
    rw [create_user, if_pos hcon] at h
    cases h
  have hins : create_user db name pw c =
      ({ db with
         users := db.users ++
           [{ user_id := db.next_user_id
              username := name
              password_hash := pw
              base_milk_cost := c }]
         next_user_id := db.next_user_id + 1 }, true) := by
    rw [create_user, if_neg (by rw [hdup]; exact Bool.false_ne_true)]
  rw [hins]
  show create_user _ name pw' c' = _
  rw [create_user, if_pos ?hcond]
  case hcond =>
    show ((db.users ++ [_]).any (fun w => decide (w.username = name))) = true
    rw [List.any_append]
    simp

/-- Witness for C6: registering "alice" twice on the initial state — the
second attempt fails and changes nothing. -/
theorem c6_register_duplicate_witness :
    create_user (create_user demoDB "alice" "pw" 50).1 "alice" "pw2" 60 =
      ((create_user demoDB "alice" "pw" 50).1, false) :=
  c6_register_duplicate demoDB "alice" "pw" 50 "pw2" 60 (by decide)

theorem seedDays_mem {u : Nat} {y : Int} {m : Nat} {bc : ℚ} {l : List Nat} {db : DB} :
    ∀ r ∈ (l.foldl (seedDay u y m bc) db).milk_records,
      r ∈ db.milk_records ∨
        (r.user_id = u ∧ r.is_taken = 1 ∧ r.base_cost = bc ∧
         r.additional_cost = 0 ∧ r.notes = none ∧
         recordExists db u r.record_date = false) := by
  induction l generalizing db with
  | nil => intro r hr; exact Or.inl hr
  | cons hd tl ih =>
    intro r hr
    simp only [List.foldl_cons] at hr
    rcases ih r hr with hmem | hnew
    · unfold seedDay at hmem
      split at hmem
      · exact Or.inl hmem
      · rcases List.mem_append.mp hmem with h1 | h2
        · exact Or.inl h1
        · rw [List.mem_singleton] at h2
          subst h2
          right
          refine ⟨rfl, rfl, rfl, rfl, rfl, ?_⟩
          simpa using Bool.not_eq_true _ ▸ by assumption
    · right
      refine ⟨hnew.1, hnew.2.1, hnew.2.2.1, hnew.2.2.2.1, hnew.2.2.2.2.1, ?_⟩
      have hfar := hnew.2.2.2.2.2
      cases hcase : recordExists db u r.record_date with
      | false => rfl
      | true =>
        rw [recordExists_seedDay_mono u y m bc hd hcase] at hfar
        cases hfar

/-- C7: every row present after seeding is either a pre-existing row of the
prior state or a freshly inserted default row: owned by the seeded account,
taken flag 1, base cost equal to the account's stored default daily cost,
additional cost 0, NULL note, and for a date that had no (account, date)
row before the call. -/
theorem c7_seed_defaults (db : DB) (u : Nat) (m : Nat) (y : Int) (usr : User)
    (hu : db.users.find? (fun w => decide (w.user_id = u)) = some usr) :
    ∀ r ∈ ((init_month_records db u m y none).1).milk_records,
      r ∈ db.milk_records ∨
        (r.user_id = u ∧ r.is_taken = 1 ∧ r.base_cost = usr.base_milk_cost ∧
         r.additional_cost = 0 ∧ r.notes = none ∧
         recordExists db u r.record_date = false) := by
  by_cases hg : m < 1 ∨ 12 < m ∨ y < 1 ∨ 9999 < y
  · rw [init_month_records, if_pos hg]
    intro r hr
    exact Or.inl hr
  · rw [init_month_records, if_neg hg]
    have hbc : (none : Option ℚ).getD (lookup_base_cost db u) = usr.base_milk_cost := by
      unfold lookup_base_cost
      rw [hu]
      rfl
    show ∀ r ∈ ((daysList (daysInMonth y m)).foldl
      (seedDay u y m ((none : Option ℚ).getD (lookup_base_cost db u))) db).milk_records, _
    rw [hbc]
    exact seedDays_mem

/-- The first row inserted when February 2024 is seeded for the demo user
from the initial state. -/
def febRec1 : MilkRecord :=
  { record_id := 1, user_id := 1
    record_date := { year := 2024, month := 2, day := 1 }
    is_taken := 1, base_cost := 104, additional_cost := 0
    total_cost := 104, notes := none }

/-- A state that already holds `febRec1`, for instantiating C7. -/
def dbFeb : DB :=
  { users := [{ user_id := 1, username := "demo", password_hash := "demo"
                base_milk_cost := 104 }]
    milk_records := [febRec1]
    monthly_summary := []
    next_user_id := 2
    next_record_id := 2 }

/-- Witness for C7 at a concrete row surviving a February 2024 seeding. -/
theorem c7_seed_defaults_witness :
    febRec1 ∈ dbFeb.milk_records ∨
      (febRec1.user_id = 1 ∧ febRec1.is_taken = 1 ∧
       febRec1.base_cost = (104 : ℚ) ∧ febRec1.additional_cost = 0 ∧
       febRec1.notes = none ∧
       recordExists dbFeb 1 febRec1.record_date = false) :=
  c7_seed_defaults dbFeb 1 2 2024
    { user_id := 1, username := "demo", password_hash := "demo", base_milk_cost := 104 }
    (by decide) febRec1 (by decide)

/-- Witness for C4's universal part at a concrete input: seeding April 2024
on the initial (empty-ledger) state. -/
theorem c4_seed_row_count_witness :
    ((init_month_records demoDB 1 4 2024 none).1).milk_records.length =
      daysInMonth 2024 4 :=
  c4_seed_row_count.1 demoDB 1 4 2024 none (by decide) (by decide) (by decide)
    (by decide) rfl

/-! Preservation of the two ledger invariants by every operation. -/

theorem TotalInvariant_congr {db db' : DB} (hrec : db'.milk_records = db.milk_records)
    (h : TotalInvariant db) : TotalInvariant db' := by
  intro r hr
  rw [hrec] at hr
  exact h r hr

theorem TakenBool_congr {db db' : DB} (hrec : db'.milk_records = db.milk_records)
    (h : TakenBool db) : TakenBool db' := by
  intro r hr
  rw [hrec] at hr
  exact h r hr

theorem milk_records_create_user (db : DB) (un pw : String) (c : ℚ) :
    ((create_user db un pw c).1).milk_records = db.milk_records := by
  rw [create_user]
  split <;> rfl

theorem milk_records_update_cost (db : DB) (u : Nat) (c : ℚ) :
    ((update_base_milk_cost db u c).1).milk_records = db.milk_records := rfl

theorem milk_records_update_password (db : DB) (u : Nat) (p : String) :
    ((update_password db u p).1).milk_records = db.milk_records := rfl

theorem milk_records_summary (db : DB) (u : Nat) (m : Nat) (y : Int) :
    ((calculate_monthly_summary db u m y).1).milk_records = db.milk_records := by
  simp only [calculate_monthly_summary]
  split <;> rfl

theorem TotalInvariant_seedDay {db : DB} (u : Nat) (y : Int) (m : Nat) (bc : ℚ)
    (day : Nat) (h : TotalInvariant db) :
    TotalInvariant (seedDay u y m bc db day) := by
  unfold seedDay
  split
  · exact h
  · intro r hr
    rcases List.mem_append.mp hr with h1 | h2
    · exact h r h1
    · rw [List.mem_singleton] at h2
      subst h2
      simp [gen_total]

theorem TotalInvariant_seedDays {db : DB} (u : Nat) (y : Int) (m : Nat) (bc : ℚ)
    (l : List Nat) (h : TotalInvariant db) :
    TotalInvariant (l.foldl (seedDay u y m bc) db) := by
  induction l generalizing db with
  | nil => exact h
  | cons hd tl ih =>
    simp only [List.foldl_cons]
    exact ih (TotalInvariant_seedDay u y m bc hd h)

theorem TotalInvariant_init {db : DB} (u : Nat) (m : Nat) (y : Int) (bc? : Option ℚ)
    (h : TotalInvariant db) :
    TotalInvariant (init_month_records db u m y bc?).1 := by
  by_cases hg : m < 1 ∨ 12 < m ∨ y < 1 ∨ 9999 < y
  · rw [init_month_records, if_pos hg]
    exact h
  · rw [init_month_records, if_neg hg]
    exact TotalInvariant_seedDays u y m _ _ h

theorem TotalInvariant_update {db : DB} (rid : Nat) (tk : Bool) (b a : ℚ)
    (n : Option String) (h : TotalInvariant db) :
    TotalInvariant (update_milk_record db rid tk b a n).1 := by
  intro r hr
  rcases List.mem_map.mp hr with ⟨r0, hr0, heq⟩
  by_cases hc : r0.record_id = rid
  · rw [if_pos hc] at heq
    subst heq
    cases tk <;> simp [gen_total]
  · rw [if_neg hc] at heq
    subst heq
    exact h r0 hr0

theorem TakenBool_seedDay {db : DB} (u : Nat) (y : Int) (m : Nat) (bc : ℚ)
    (day : Nat) (h : TakenBool db) :
    TakenBool (seedDay u y m bc db day) := by
  unfold seedDay
  split
  · exact h
  · intro r hr
    rcases List.mem_append.mp hr with h1 | h2
    · exact h r h1
    · rw [List.mem_singleton] at h2
      subst h2
      exact Or.inr rfl

theorem TakenBool_seedDays {db : DB} (u : Nat) (y : Int) (m : Nat) (bc : ℚ)
    (l : List Nat) (h : TakenBool db) :
    TakenBool (l.foldl (seedDay u y m bc) db) := by
  induction l generalizing db with
  | nil => exact h
  | cons hd tl ih =>
    simp only [List.foldl_cons]
    exact ih (TakenBool_seedDay u y m bc hd h)

theorem TakenBool_init {db : DB} (u : Nat) (m : Nat) (y : Int) (bc? : Option ℚ)
    (h : TakenBool db) :
    TakenBool (init_month_records db u m y bc?).1 := by
  by_cases hg : m < 1 ∨ 12 < m ∨ y < 1 ∨ 9999 < y
  · rw [init_month_records, if_pos hg]
    exact h
  · rw [init_month_records, if_neg hg]
    exact TakenBool_seedDays u y m _ _ h

theorem TakenBool_update {db : DB} (rid : Nat) (tk : Bool) (b a : ℚ)
    (n : Option String) (h : TakenBool db) :
    TakenBool (update_milk_record db rid tk b a n).1 := by
  intro r hr
  rcases List.mem_map.mp hr with ⟨r0, hr0, heq⟩
  by_cases hc : r0.record_id = rid
  · rw [if_pos hc] at heq
    subst heq
    cases tk
    · exact Or.inl rfl
    · exact Or.inr rfl
  · rw [if_neg hc] at heq
    subst heq
    exact h r0 hr0

/-- C2: after every operation, the stored generated `total_cost` column of
every DailyRecord equals the pure function of the other fields (base +
additional when the stored taken flag is 1, else 0), and the total observed
through the read query equals that same function of the fields it returns:
the total never diverges from the formula. -/
theorem c2_derived_total (db : DB) (op : Op) (u : Nat) (m : Nat) (y : Int)
    (h : TotalInvariant db) :
    TotalInvariant (applyOp db op) ∧
    ∀ v ∈ get_milk_records (applyOp db op) u m y,
      v.total_cost = if v.is_taken = 1 then v.base_cost + v.additional_cost else 0 := by
  constructor
  · cases op with
    | seed u' m' y' bc => exact TotalInvariant_init u' m' y' bc h
    | updateRecord rid tk b a n => exact TotalInvariant_update rid tk b a n h
    | register un pw c => exact TotalInvariant_congr (milk_records_create_user db un pw c) h
    | setCost u' c => exact TotalInvariant_congr (milk_records_update_cost db u' c) h
    | setPassword u' p => exact TotalInvariant_congr (milk_records_update_password db u' p) h
    | summarize u' m' y' => exact TotalInvariant_congr (milk_records_summary db u' m' y') h
  · intro v hv
    rcases List.mem_map.mp hv with ⟨r, _, heq⟩
    subst heq
    rfl

/-- Witness for C2: the invariant holds and read totals obey the formula
after seeding February 2024 from the initial state. -/
theorem c2_derived_total_witness :
    TotalInvariant (applyOp demoDB (Op.seed 1 2 2024 none)) ∧
    ∀ v ∈ get_milk_records (applyOp demoDB (Op.seed 1 2 2024 none)) 1 2 2024,
      v.total_cost = if v.is_taken = 1 then v.base_cost + v.additional_cost else 0 :=
  c2_derived_total demoDB (Op.seed 1 2 2024 none) 1 2 2024
    (by intro r hr; simp [demoDB] at hr)

/-- C10 (implicit): every operation keeps each stored `is_taken` flag
exactly 0 or 1 — the seeder only writes 1 and the updater normalizes its
Boolean input to 1 or 0 — so counting rows whose flag equals 1 coincides
with counting rows whose flag is truthy (nonzero). -/
theorem c10_taken_flag (db : DB) (op : Op) (h : TakenBool db) :
    TakenBool (applyOp db op) ∧
    (applyOp db op).milk_records.countP (fun r => decide (r.is_taken = 1)) =
      (applyOp db op).milk_records.countP (fun r => decide (r.is_taken ≠ 0)) := by
  have hpres : TakenBool (applyOp db op) := by
    cases op with
    | seed u' m' y' bc => exact TakenBool_init u' m' y' bc h
    | updateRecord rid tk b a n => exact TakenBool_update rid tk b a n h
    | register un pw c => exact TakenBool_congr (milk_records_create_user db un pw c) h
    | setCost u' c => exact TakenBool_congr (milk_records_update_cost db u' c) h
    | setPassword u' p => exact TakenBool_congr (milk_records_update_password db u' p) h
    | summarize u' m' y' => exact TakenBool_congr (milk_records_summary db u' m' y') h
  refine ⟨hpres, List.countP_congr ?_⟩
  intro r hr
  rcases hpres r hr with h0 | h1
  · simp [h0]
  · simp [h1]

/-- Witness for C10 after an update that stores a falsy flag. -/
theorem c10_taken_flag_witness :
    TakenBool (applyOp demoDB (Op.updateRecord 1 false 10 5 none)) ∧
    (applyOp demoDB (Op.updateRecord 1 false 10 5 none)).milk_records.countP
        (fun r => decide (r.is_taken = 1)) =
      (applyOp demoDB (Op.updateRecord 1 false 10 5 none)).milk_records.countP
        (fun r => decide (r.is_taken ≠ 0)) :=
  c10_taken_flag demoDB (Op.updateRecord 1 false 10 5 none)
    (by intro r hr; simp [demoDB] at hr)

theorem sum_case_eq_taken_sum (l : List MilkRecord) :
    (l.map (fun r => if r.is_taken = 1 then r.base_cost + r.additional_cost else 0)).sum
      = ((l.filter (fun r => decide (r.is_taken = 1))).map
          (fun r => r.base_cost + r.additional_cost)).sum := by
  induction l with
  | nil => rfl
  | cons hd tl ih =>
    by_cases hc : hd.is_taken = 1
    · simp [List.filter_cons, hc, ih]
    · simp [List.filter_cons, hc, ih]

theorem sum_case_eq_countP (l : List MilkRecord) :
    (l.map (fun r => if r.is_taken = 1 then (1 : Nat) else 0)).sum
      = l.countP (fun r => decide (r.is_taken = 1)) := by
  induction l with
  | nil => rfl
  | cons hd tl ih =>
    by_cases hc : hd.is_taken = 1
    · simp [List.countP_cons, hc, ih, Nat.add_comm]
    · simp [List.countP_cons, hc, ih]

/-- C3 counterexample: a state holding one taken January 2019 record with
base cost 104.  The claim predicts the triple (1, 1, 104), but the summary
call returns no triple at all: the cached-summary insert violates the
`year BETWEEN 2020 AND 2100` CHECK constraint and the function returns
None. -/
theorem c3_counterexample :
    (calculate_monthly_summary
        { users := [{ user_id := 1, username := "demo", password_hash := "demo"
                      base_milk_cost := 104 }]
          milk_records := [{ record_id := 1, user_id := 1
                             record_date := { year := 2019, month := 1, day := 1 }
                             is_taken := 1, base_cost := 104, additional_cost := 0
                             total_cost := 104, notes := none }]
          monthly_summary := []
          next_user_id := 2
          next_record_id := 2 } 1 1 2019).2 ≠
      some { total_days := 1, milk_taken_days := 1, total_amount := 104 } := by decide

/-- C3 (amended): for month in 1..12 and year in 2020..2100 — the range the
summary table's CHECK constraints admit — summarize returns total_days =
the month's row count, taken_days = the count of rows with flag 1, and
total_amount = the sum of base + additional over exactly the rows with flag
1 (a row with flag 0 contributes nothing regardless of its costs); moreover
a record updated to taken=false has flag 0 afterwards, so it drops out of
that sum on the next summarize.  Outside the CHECK range the call fails and
returns no triple. -/
theorem c3_summary_formula (db : DB) (u : Nat) (m : Nat) (y : Int)
    (h1 : 1 ≤ m) (h2 : m ≤ 12) (h3 : 2020 ≤ y) (h4 : y ≤ 2100) :
    (calculate_monthly_summary db u m y).2 =
      some { total_days := (monthRecords db u m y).length
             milk_taken_days :=
               (monthRecords db u m y).countP (fun r => decide (r.is_taken = 1))
             total_amount :=
               (((monthRecords db u m y).filter (fun r => decide (r.is_taken = 1))).map
                 (fun r => r.base_cost + r.additional_cost)).sum } ∧
    ∀ (rid : Nat) (b a : ℚ) (n : Option String),
      ∀ r ∈ ((update_milk_record db rid false b a n).1).milk_records,
        r.record_id = rid → r.is_taken = 0 := by
  constructor
  · simp only [calculate_monthly_summary]
    rw [if_pos ⟨h1, h2, h3, h4⟩]
    rw [sum_case_eq_countP, sum_case_eq_taken_sum]
  · intro rid b a n r hr hid
    rcases List.mem_map.mp hr with ⟨r0, hr0, heq⟩
    by_cases hc : r0.record_id = rid
    · rw [if_pos hc] at heq
      subst heq
      rfl
    · rw [if_neg hc] at heq
      subst heq
      exact absurd hid hc

/-- Witness for C3's amended statement on a concrete in-range state. -/
theorem c3_summary_formula_witness :
    (calculate_monthly_summary demoDB 1 4 2024).2 =
      some { total_days := (monthRecords demoDB 1 4 2024).length
             milk_taken_days :=
               (monthRecords demoDB 1 4 2024).countP (fun r => decide (r.is_taken = 1))
             total_amount :=
               (((monthRecords demoDB 1 4 2024).filter
                   (fun r => decide (r.is_taken = 1))).map
                 (fun r => r.base_cost + r.additional_cost)).sum } ∧
    ∀ (rid : Nat) (b a : ℚ) (n : Option String),
      ∀ r ∈ ((update_milk_record demoDB rid false b a n).1).milk_records,
        r.record_id = rid → r.is_taken = 0 :=
  c3_summary_formula demoDB 1 4 2024 (by decide) (by decide) (by decide) (by decide)

/-- C8 counterexample: the initial state has zero January 2019 records, yet
summarize for January 2019 does not return the zero triple — the
cached-summary insert violates the `year BETWEEN 2020 AND 2100` CHECK
constraint, so the call returns None. -/
theorem c8_counterexample :
    (calculate_monthly_summary demoDB 1 1 2019).2 ≠
      some { total_days := 0, milk_taken_days := 0, total_amount := 0 } := by decide

/-- C8 (amended): for month in 1..12 and year in 2020..2100 — the range the
summary table's CHECK constraints admit — summarize over an account/month
with zero DailyRecord rows returns the triple (0, 0, 0); outside the CHECK
range the call fails and returns no triple. -/
theorem c8_empty_summary (db : DB) (u : Nat) (m : Nat) (y : Int)
    (h1 : 1 ≤ m) (h2 : m ≤ 12) (h3 : 2020 ≤ y) (h4 : y ≤ 2100)
    (hempty : monthRecords db u m y = []) :
    (calculate_monthly_summary db u m y).2 =
      some { total_days := 0, milk_taken_days := 0, total_amount := 0 } := by
  simp only [calculate_monthly_summary]
  rw [if_pos ⟨h1, h2, h3, h4⟩, hempty]
  rfl

/-- Witness for C8's amended statement: the never-seeded April 2024 on the
initial state summarizes to the zero triple. -/
theorem c8_empty_summary_witness :
    (calculate_monthly_summary demoDB 1 4 2024).2 =
      some { total_days := 0, milk_taken_days := 0, total_amount := 0 } :=
  c8_empty_summary demoDB 1 4 2024 (by decide) (by decide) (by decide) (by decide) rfl

/-- C9: authentication succeeds with a given account id exactly when an
account of the given username exists whose stored credential equals the
supplied secret verbatim — no one-way transform is applied to either side
(the source's `hash_password` helper is unused on this path).  Usernames
are assumed pairwise distinct, as the UNIQUE column constraint guarantees. -/
theorem c9_plain_credentials (db : DB) (name pw : String) (uid : Nat)
    (hnd : (db.users.map User.username).Nodup) :
    authenticate db name pw = some uid ↔
      ∃ w ∈ db.users, w.username = name ∧ w.password_hash = pw ∧ w.user_id = uid := by
  unfold authenticate
  constructor
  · intro hauth
    cases hf : db.users.find? (fun w => decide (w.username = name)) with
    | none =>
      rw [hf] at hauth
      cases hauth
    | some w =>
      rw [hf] at hauth
      simp only at hauth
      by_cases hp : w.password_hash = pw
      · rw [if_pos hp] at hauth
        refine ⟨w, List.mem_of_find?_eq_some hf, ?_, hp, Option.some.inj hauth⟩
        have hw := List.find?_some hf
        exact of_decide_eq_true hw
      · rw [if_neg hp] at hauth
        cases hauth
  · rintro ⟨w, hmem, hname, hpw, huid⟩
    cases hf : db.users.find? (fun w => decide (w.username = name)) with
    | none =>
      have := List.find?_eq_none.mp hf w hmem
      simp [hname] at this
    | some v =>
      have hvname : v.username = name := by
        have hv := List.find?_some hf
        exact of_decide_eq_true hv
      have hvw : v = w :=
        List.inj_on_of_nodup_map hnd (List.mem_of_find?_eq_some hf) hmem
          (by rw [hvname, hname])
      show (if v.password_hash = pw then some v.user_id else none) = some uid
      rw [hvw, if_pos hpw, huid]

/-- Witness for C9 on the initial state: the demo account authenticates
with its stored plain credential. -/
theorem c9_plain_credentials_witness :
    authenticate demoDB "demo" "demo" = some 1 :=
  (c9_plain_credentials demoDB "demo" "demo" 1 (by decide)).mpr
    ⟨{ user_id := 1, username := "demo", password_hash := "demo", base_milk_cost := 104 },
     by decide, rfl, rfl, rfl⟩

end MilkyBasket
